import Mathlib

/-!
Verification of the Nexus child-membership subsystem (Mayastor).

Shallow embedding of `src/mayastor/src/bdev/nexus/nexus_bdev_children.rs`
(the `impl Nexus` block: `register_children`, `register_child`, `add_child`,
`remove_child`, `offline_child`, `online_child`, `fault_child`,
`try_open_children`, `update_child_labels`, `min_num_blocks`).

Collaborators whose sources are not part of the sample
(`nexus_child.rs`: `NexusChild::{new, open, close, destroy, probe_label}`,
`ChildState`; `nexus_bdev.rs`: `NexusState`, `set_state`, the bdev registry
`bdev_create` / `bdev_lookup_by_name` / `bdev_destroy`; `nexus_channel.rs`:
`reconfigure`) are modelled from the specification; each such definition
carries a doc comment saying so.

Rust `u32`/`u64` quantities (block lengths, block counts, `child_count`)
are embedded as `Nat`; the one place where the machine width is observable
(`std::u64::MAX` in `min_num_blocks`) uses the explicit constant `U64MAX`.
-/

namespace Mayastor

/-- The constant `std::u64::MAX`, i.e. `2^64 - 1`. -/
def U64MAX : Nat := 2 ^ 64 - 1

/-- Modelled from the spec: a backing-device handle exposing block length,
block count, and required alignment (§6 Backing Device Registry). -/
structure Bdev where
  block_len : Nat
  num_blocks : Nat
  alignment : Nat
deriving Repr, DecidableEq

/-- Source `Bdev::set_block_len` (the nexus records the children's block size). -/
def Bdev.set_block_len (b : Bdev) (l : Nat) : Bdev :=
  { b with block_len := l }

/-- Modelled from the spec: child states (§3 Data Model):
`{Init, ConfigInvalid, Open, Closed, Faulted}`; `nexus_child.rs` is not in
the sample. -/
inductive ChildState where
  | Init
  | ConfigInvalid
  | Open
  | Closed
  | Faulted
deriving Repr, DecidableEq

/-- Modelled from the spec: nexus states (§3 Data Model):
`{Init, Open, Degraded, Closed, Faulted}`; `nexus_bdev.rs` is not in the
sample. -/
inductive NexusState where
  | Init
  | Open
  | Degraded
  | Closed
  | Faulted
deriving Repr, DecidableEq

/-- The error kinds surfaced by the membership operations: the variants the
sampled code constructs (`NexusIncomplete`, `Invalid`, `Internal`,
`NotFound`) together with the spec's error taxonomy for the modelled
collaborators (§7): device creation/destroy failures and the failure modes
of `NexusChild::open` (`GeometryMismatch`, `AlreadyOpen`, `DeviceGone`). -/
inductive Error where
  | NotFound
  | NexusIncomplete
  | Invalid (reason : String)
  | Internal (msg : String)
  | GeometryMismatch
  | AlreadyOpen
  | DeviceGone
  | DeviceCreate
  | DestroyFailed
deriving Repr, DecidableEq

/-- A child of the nexus: URI name, parent back-reference, optional backing
device handle, and a state.  Field layout from the spec's data model (§3);
`nexus_child.rs` is not in the sample. -/
structure NexusChild where
  name : String
  parent : String
  bdev : Option Bdev
  state : ChildState
deriving Repr, DecidableEq

/-- Modelled from the spec: `NexusChild::new` creates a child in `Init`
with an optional handle (§3 Lifecycles: "created in `Init` with optional
handle"). -/
def NexusChild.new (name parent : String) (bdev : Option Bdev) : NexusChild :=
  { name := name, parent := parent, bdev := bdev, state := ChildState.Init }

/-- Modelled from the spec: `NexusChild::open(min_size)` (§4.1): requires a
resolved handle (else `DeviceGone`) and `state ∈ {Init, Closed}` (else
`AlreadyOpen`); validates `handle.num_blocks × block_len ≥ min_size`, a
geometry failure sending the child to the sink state `ConfigInvalid`
(§4.1: "`ConfigInvalid` is a sink state entered when geometry validation
fails before opening"); on success sets `state = Open` and returns the
device name (the child's registered name, which `try_open_children`'s
compensation path looks up again by `c.name`). -/
def NexusChild.open (min_size : Nat) (c : NexusChild) :
    Except Error String × NexusChild :=
  match c.bdev with
  | none => (Except.error Error.DeviceGone, c)
  | some b =>
    if c.state = ChildState.Init ∨ c.state = ChildState.Closed then
      if b.num_blocks * b.block_len < min_size then
        (Except.error Error.GeometryMismatch,
          { c with state := ChildState.ConfigInvalid })
      else
        (Except.ok c.name, { c with state := ChildState.Open })
    else
      (Except.error Error.AlreadyOpen, c)

/-- Modelled from the spec: `NexusChild::close` (§4.1): "permitted from any
state; releases the handle, sets `state = Closed`. Idempotent."  The
registry reference itself is retained (the spec's round-trip law
`online_child ∘ offline_child` re-opens through the same handle), so close
only transitions the state. -/
def NexusChild.close (c : NexusChild) : Except Error Unit × NexusChild :=
  (Except.ok (), { c with state := ChildState.Closed })

/-- Whether `NexusChild::open` at this size succeeds for this child, used
to phrase "the child did open during the attempt". -/
def NexusChild.openOk (min_size : Nat) (c : NexusChild) : Bool :=
  (NexusChild.open min_size c).1.isOk

/-- The registry of created backing devices, keyed by device name
(§6: `lookup(name) → handle?`). -/
abbrev Registry := List (String × Bdev)

/-- The environment: what `bdev_create(uri)` would produce for each URI —
either a device name and handle, or a creation failure (§6:
`create(uri) → backing-name | Error`). -/
abbrev Env := String → Option (String × Bdev)

/-- Modelled from the spec: `bdev_lookup_by_name` resolves a device name in
the registry (§6: `lookup(name) → handle?`, synchronous). -/
def bdev_lookup_by_name (name : String) (reg : Registry) : Option Bdev :=
  (List.find? (fun p => p.1 = name) reg).map (fun p => p.2)

/-- Modelled from the spec: `bdev_create(uri)` (§6): asynchronous,
idempotent per URI; on success the device is registered under its name and
the name returned. -/
def bdev_create (env : Env) (uri : String) (reg : Registry) :
    Except Error String × Registry :=
  match env uri with
  | none => (Except.error Error.DeviceCreate, reg)
  | some (name, b) =>
    (Except.ok name,
      if reg.any (fun p => p.1 = name) then reg else (name, b) :: reg)

/-- Modelled from the spec: `bdev_destroy(uri)` (§6): destroys the device
the URI resolves to, removing it from the registry. -/
def bdev_destroy (env : Env) (uri : String) (reg : Registry) :
    Except Error Unit × Registry :=
  match env uri with
  | none => (Except.error Error.DestroyFailed, reg)
  | some (name, _) =>
    (Except.ok (), reg.filter (fun p => p.1 ≠ name))

/-- Modelled from the spec: `NexusChild::destroy` (§4.1): requires
`state = Closed`; instructs the registry to destroy the underlying device
by URI (the child's registered name). -/
def NexusChild.destroy (env : Env) (c : NexusChild) (reg : Registry) :
    Except Error Unit × Registry :=
  if c.state = ChildState.Closed then bdev_destroy env c.name reg
  else (Except.error (Error.Invalid "destroy: child not closed"), reg)

/-- Reconfiguration events broadcast to the per-worker channels
(`nexus_channel::DREvent`). -/
inductive DREvent where
  | ChildOffline
  | ChildOnline
  | ChildFault
deriving Repr, DecidableEq

/-- The nexus: name, logical size, state, its own bdev (carrying the
recorded `block_len` and `required_alignment`), the ordered children, and
the `child_count` cache (§3 Data Model). -/
structure Nexus where
  name : String
  size : Nat
  state : NexusState
  bdev : Bdev
  children : List NexusChild
  child_count : Nat
deriving Repr, DecidableEq

/-- Modelled from the spec: `Nexus::set_state` stores the new state and
returns it (every membership change "returns the resulting Nexus state",
§4.4); `nexus_bdev.rs` is not in the sample. -/
def Nexus.set_state (n : Nexus) (s : NexusState) : NexusState × Nexus :=
  (s, { n with state := s })

/-- Modelled from the spec: `Nexus::reconfigure(event)` broadcasts the
membership change to the per-worker I/O channels and awaits their
acknowledgement (§4.2); it does not change the child list, the counts or
the nexus state, so on this embedding it is the identity on the nexus. -/
def Nexus.reconfigure (n : Nexus) (_e : DREvent) : Nexus := n

/-- Source `Nexus::min_num_blocks`: fold `if *s < blockcnt { blockcnt = *s }`
over the `num_blocks` of the Open children, starting from `std::u64::MAX`.
The source unwraps each Open child's `bdev`; a missing handle (a panic in
the source) is embedded as `getD 0`, and every theorem about this function
assumes Open children carry handles. -/
def Nexus.min_num_blocks (n : Nexus) : Nat :=
  ((n.children.filter (fun c => c.state = ChildState.Open)).map
      (fun c => (c.bdev.map Bdev.num_blocks).getD 0)).foldl
    (fun blockcnt s => if s < blockcnt then s else blockcnt) U64MAX

/-- First-match fault: `children.iter_mut().find(|c| c.name == name)` with
`child.state = ChildState::Faulted` on the match (`fault_child`). -/
def faultFirst (nm : String) : List NexusChild → List NexusChild
  | [] => []
  | c :: cs =>
    if c.name = nm then { c with state := ChildState.Faulted } :: cs
    else c :: faultFirst nm cs

/-- First-match close, discarding the close result: the compensation loop of
`try_open_children` (`let _ = child.close();`). -/
def closeFirst (nm : String) : List NexusChild → List NexusChild
  | [] => []
  | c :: cs =>
    if c.name = nm then (NexusChild.close c).2 :: cs
    else c :: closeFirst nm cs

/-- First-match close with the result propagated: the body of
`offline_child` (`child.close()?`), `NotFound` when no child matches. -/
def offlineFirst (nm : String) : List NexusChild →
    Except Error Unit × List NexusChild
  | [] => (Except.error Error.NotFound, [])
  | c :: cs =>
    if c.name = nm then
      match NexusChild.close c with
      | (r, c') => (r, c' :: cs)
    else
      match offlineFirst nm cs with
      | (r, cs') => (r, c :: cs')

/-- First-match open: the body of `online_child` — refuse a non-Closed
child, otherwise `child.open(size)?` (the child's state mutation persists
even when open fails); `NotFound` when no child matches. -/
def onlineFirst (sz : Nat) (nm : String) : List NexusChild →
    Except Error Unit × List NexusChild
  | [] => (Except.error Error.NotFound, [])
  | c :: cs =>
    if c.name = nm then
      if c.state ≠ ChildState.Closed then
        (Except.error (Error.Invalid "Child is not closed so can not open"),
          c :: cs)
      else
        match NexusChild.open sz c with
        | (Except.ok _, c') => (Except.ok (), c' :: cs)
        | (Except.error e, c') => (Except.error e, c' :: cs)
    else
      match onlineFirst sz nm cs with
      | (r, cs') => (r, c :: cs')

/-- Split the children at the first one named `nm`:
`children.iter().position(|c| c.name == uri)` plus the index accesses of
`remove_child`, as (prefix, match, suffix). -/
def splitFirst (nm : String) : List NexusChild →
    Option (List NexusChild × NexusChild × List NexusChild)
  | [] => none
  | c :: cs =>
    if c.name = nm then some ([], c, cs)
    else (splitFirst nm cs).map (fun pcs => (c :: pcs.1, pcs.2.1, pcs.2.2))

/-- Source `Nexus::register_children`: asserts `state == Init` (a failed Rust
assertion panics; embedded as a guard leaving the nexus unchanged); sets
`child_count` to the *number of URIs given* (an assignment, not an
increment) and appends one Init child per URI, resolving handles through
the registry. -/
def Nexus.register_children (n : Nexus) (reg : Registry)
    (dev_name : List String) : Nexus :=
  if n.state = NexusState.Init then
    { n with
      child_count := dev_name.length,
      children := n.children ++ dev_name.map (fun c =>
        NexusChild.new c n.name (bdev_lookup_by_name c reg)) }
  else n

/-- Source `Nexus::register_child`: asserts `state == Init` (embedded as an
`Internal` error where the source would panic); creates the backing device,
appends an Init child named by the URI, increments `child_count`, returns
the device name. -/
def Nexus.register_child (env : Env) (n : Nexus) (reg : Registry)
    (uri : String) : Except Error String × Nexus × Registry :=
  if n.state = NexusState.Init then
    match bdev_create env uri reg with
    | (Except.error e, reg') => (Except.error e, n, reg')
    | (Except.ok name, reg') =>
      (Except.ok name,
        { n with
          children := n.children ++
            [NexusChild.new uri n.name (bdev_lookup_by_name name reg')],
          child_count := n.child_count + 1 },
        reg')
  else (Except.error (Error.Internal "assertion failed: state == Init"), n, reg)

/-- Source `Nexus::add_child`: create the backing device; if it looks up with a
`block_len` different from the nexus's or with `min_num_blocks() <
child.num_blocks()`, log "invalid geometry" and destroy it — but fall
through either way (the source does not return there); look the device up
again (`Internal "child does not exist"` when the destroy removed it);
build a `NexusChild` and `open` it; on success mark the child `Faulted`,
append it, bump `child_count` and return `set_state(Degraded)`; on open
failure destroy the device and return open's error. -/
def Nexus.add_child (env : Env) (n : Nexus) (reg : Registry)
    (uri : String) : Except Error NexusState × Nexus × Registry :=
  match bdev_create env uri reg with
  | (Except.error e, reg1) => (Except.error e, n, reg1)
  | (Except.ok name, reg1) =>
    let step :=
      match bdev_lookup_by_name name reg1 with
      | some child =>
        if child.block_len ≠ n.bdev.block_len ∨
            n.min_num_blocks < child.num_blocks then
          bdev_destroy env uri reg1
        else (Except.ok (), reg1)
      | none => (Except.ok (), reg1)
    match step with
    | (Except.error e, reg2) => (Except.error e, n, reg2)
    | (Except.ok _, reg2) =>
      match bdev_lookup_by_name name reg2 with
      | none => (Except.error (Error.Internal "child does not exist"), n, reg2)
      | some b =>
        let child := NexusChild.new name n.name (some b)
        match NexusChild.open n.size child with
        | (Except.ok _, child') =>
          let child2 := { child' with state := ChildState.Faulted }
          let n1 := { n with
            children := n.children ++ [child2],
            child_count := n.child_count + 1 }
          let (s, n2) := n1.set_state NexusState.Degraded
          (Except.ok s, n2, reg2)
        | (Except.error e, _) =>
          match bdev_destroy env uri reg2 with
          | (Except.error e2, reg3) => (Except.error e2, n, reg3)
          | (Except.ok _, reg3) => (Except.error e, n, reg3)

/-- Source `Nexus::remove_child`: success when no child bears the URI; otherwise
close the child (`close()?`), refuse with `Invalid "must close me"` when it
is still not `Closed`, else remove it from the list, decrement
`child_count`, and destroy its backing device (`destroy().await?`). -/
def Nexus.remove_child (env : Env) (n : Nexus) (reg : Registry)
    (uri : String) : Except Error Unit × Nexus × Registry :=
  match splitFirst uri n.children with
  | none => (Except.ok (), n, reg)
  | some (pre, c, post) =>
    match NexusChild.close c with
    | (Except.error e, c') =>
      (Except.error e, { n with children := pre ++ c' :: post }, reg)
    | (Except.ok _, c') =>
      if c'.state ≠ ChildState.Closed then
        (Except.error (Error.Invalid "must close me"),
          { n with children := pre ++ c' :: post }, reg)
      else
        let n1 := { n with
          children := pre ++ post, child_count := n.child_count - 1 }
        match NexusChild.destroy env c' reg with
        | (Except.error e, reg1) => (Except.error e, n1, reg1)
        | (Except.ok _, reg1) => (Except.ok (), n1, reg1)

/-- Source `Nexus::offline_child`: close the first child with the given name
(`NotFound` when absent), reconfigure (`ChildOffline`), return
`set_state(Degraded)`. -/
def Nexus.offline_child (n : Nexus) (name : String) :
    Except Error NexusState × Nexus :=
  match offlineFirst name n.children with
  | (Except.error e, cs) => (Except.error e, { n with children := cs })
  | (Except.ok _, cs) =>
    let n1 := { n with children := cs }
    let n2 := n1.reconfigure DREvent.ChildOffline
    let (s, n3) := n2.set_state NexusState.Degraded
    (Except.ok s, n3)

/-- Source `Nexus::online_child`: on the first child with the given name, refuse
when it is not `Closed`, else `open(self.size)?`; reconfigure
(`ChildOnline`) and return `set_state(Degraded)`; `NotFound` when absent. -/
def Nexus.online_child (n : Nexus) (name : String) :
    Except Error NexusState × Nexus :=
  match onlineFirst n.size name n.children with
  | (Except.error e, cs) => (Except.error e, { n with children := cs })
  | (Except.ok _, cs) =>
    let n1 := { n with children := cs }
    let n2 := n1.reconfigure DREvent.ChildOnline
    let (s, n3) := n2.set_state NexusState.Degraded
    (Except.ok s, n3)

/-- Source `Nexus::fault_child`: mark the first child with the given name
`Faulted` (no check of its current state), reconfigure (`ChildFault`),
return `set_state(Degraded)`; `NotFound` when absent. -/
def Nexus.fault_child (n : Nexus) (name : String) :
    Except Error NexusState × Nexus :=
  if n.children.any (fun c => c.name = name) then
    let n1 := { n with children := faultFirst name n.children }
    let n2 := n1.reconfigure DREvent.ChildFault
    let (s, n3) := n2.set_state NexusState.Degraded
    (Except.ok s, n3)
  else (Except.error Error.NotFound, n)

/-- The alignment loop at the end of `try_open_children`: for each child's
alignment `s`, `if self.bdev.alignment() < *s { required_alignment = *s }`. -/
def foldAlignment (b : Bdev) (cs : List NexusChild) : Bdev :=
  cs.foldl
    (fun b c =>
      if b.alignment < (c.bdev.map Bdev.alignment).getD 0 then
        { b with alignment := (c.bdev.map Bdev.alignment).getD 0 }
      else b)
    b

/-- Source `Nexus::try_open_children`: `NexusIncomplete` when the list is empty or
some child lacks a handle; `Invalid` on mixed block sizes; otherwise record
`blk_size` on the nexus bdev, open every child in order, and if any open
failed close (by name) every child whose open succeeded and return
`NexusIncomplete`; on full success fold the children's alignments into the
nexus bdev's required alignment. -/
def Nexus.try_open_children (n : Nexus) : Except Error Unit × Nexus :=
  match n.children with
  | [] => (Except.error Error.NexusIncomplete, n)
  | c0 :: rest =>
    if (c0 :: rest).any (fun c => c.bdev.isNone) then
      (Except.error Error.NexusIncomplete, n)
    else
      let blk_size := (c0.bdev.map Bdev.block_len).getD 0
      if (c0 :: rest).any
          (fun c => (c.bdev.map Bdev.block_len).getD 0 ≠ blk_size) then
        (Except.error (Error.Invalid "children have mixed block sizes"), n)
      else
        let n1 := { n with bdev := n.bdev.set_block_len blk_size }
        let results := (c0 :: rest).map (fun c => NexusChild.open n1.size c)
        let opened := results.filterMap (fun r => (r.1).toOption)
        let n2 := { n1 with children := results.map Prod.snd }
        if results.any (fun r => !(r.1).isOk) then
          let n3 := { n2 with
            children := opened.foldl (fun cs nm => closeFirst nm cs) n2.children }
          (Except.error Error.NexusIncomplete, n3)
        else
          let n3 := { n2 with bdev := foldAlignment n2.bdev n2.children }
          (Except.ok (), n3)

/-- Modelled from the spec: `NexusLabel` is "an opaque value with a total
equality relation" (§3); embedded as a wrapped `Nat`. -/
structure NexusLabel where
  val : Nat
deriving Repr, DecidableEq

/-- Source `Nexus::update_child_labels`: probe every child's label (the per-child
probe outcome is the parameter, `probe_label` living outside the sample);
`Internal` when any probe failed; `Invalid "GPT labels differ"` when some
label differs from the first; otherwise return the last label (`pop`).
The source's `ret.pop().unwrap()` panics on an empty children list; the
panic is embedded as an `Internal` error. -/
def Nexus.update_child_labels (probe : NexusChild → Except Error NexusLabel)
    (n : Nexus) : Except Error NexusLabel :=
  let results := n.children.map probe
  if results.any (fun r => !r.isOk) then
    Except.error (Error.Internal "failed to probe all child labels")
  else
    match results.filterMap Except.toOption with
    | [] => Except.error (Error.Internal "panic: pop from empty label vec")
    | l0 :: ls =>
      if ls.any (fun l => l ≠ l0) then
        Except.error (Error.Invalid "GPT labels differ")
      else Except.ok (List.getLast (l0 :: ls) (List.cons_ne_nil l0 ls))

/-- A nexus together with the backing-device registry: the state the
membership operations act on. -/
structure World where
  nexus : Nexus
  reg : Registry
deriving Repr, DecidableEq

/-- The membership operations of claim C4, as a small command language. -/
inductive MemberOp where
  | regChildren (uris : List String)
  | regChild (uri : String)
  | addChild (uri : String)
  | removeChild (uri : String)
deriving Repr, DecidableEq

/-- One membership operation applied to the world (results discarded). -/
def World.step (env : Env) (w : World) : MemberOp → World
  | MemberOp.regChildren uris =>
    { w with nexus := w.nexus.register_children w.reg uris }
  | MemberOp.regChild uri =>
    match Nexus.register_child env w.nexus w.reg uri with
    | (_, n, reg) => { nexus := n, reg := reg }
  | MemberOp.addChild uri =>
    match Nexus.add_child env w.nexus w.reg uri with
    | (_, n, reg) => { nexus := n, reg := reg }
  | MemberOp.removeChild uri =>
    match Nexus.remove_child env w.nexus w.reg uri with
    | (_, n, reg) => { nexus := n, reg := reg }

/-- A sequence of membership operations. -/
def World.run (env : Env) (w : World) (ops : List MemberOp) : World :=
  ops.foldl (World.step env) w

/-! Concrete fixtures used by witnesses and counterexamples. -/

/-- A 512-byte-block backing device with the given block count. -/
def b512 (nb : Nat) : Bdev := { block_len := 512, num_blocks := nb, alignment := 0 }

/-- An Open child named "a" backed by a 100-block device. -/
def childA : NexusChild :=
  { name := "a", parent := "nx", bdev := some (b512 100), state := ChildState.Open }

/-- An Open nexus of size 51200 bytes whose sole child is `childA`. -/
def nx0 : Nexus :=
  { name := "nx", size := 51200, state := NexusState.Open,
    bdev := { block_len := 512, num_blocks := 100, alignment := 0 },
    children := [childA], child_count := 1 }

/-- The registry holding `childA`'s backing device. -/
def regA : Registry := [("a", b512 100)]

/-- An environment resolving only the URI "a". -/
def envA : Env := fun u => if u = "a" then some ("a", b512 100) else none

/-- An environment resolving only the URI "aio://b", to a 200-block device
named "b". -/
def envB : Env := fun u => if u = "aio://b" then some ("b", b512 200) else none

/-! Helper lemmas about the first-match list traversals. -/

/-- When no child bears the name, `splitFirst` finds nothing. -/
theorem splitFirst_eq_none (nm : String) (cs : List NexusChild)
    (h : ∀ c ∈ cs, c.name ≠ nm) : splitFirst nm cs = none := by
  induction cs with
  | nil => rfl
  | cons c cs ih =>
    have hc : ¬ c.name = nm := h c (List.mem_cons_self c cs)
    have ih' := ih (fun d hd => h d (List.mem_cons_of_mem c hd))
    simp [splitFirst, hc, ih']

/-- On a list decomposed around its first match, `splitFirst` returns that
decomposition. -/
theorem splitFirst_append (nm : String) (pre : List NexusChild)
    (c : NexusChild) (post : List NexusChild)
    (hpre : ∀ d ∈ pre, d.name ≠ nm) (hc : c.name = nm) :
    splitFirst nm (pre ++ c :: post) = some (pre, c, post) := by
  induction pre with
  | nil => simp [splitFirst, hc]
  | cons p ps ih =>
    have hp : ¬ p.name = nm := hpre p (List.mem_cons_self p ps)
    have ih' := ih (fun d hd => hpre d (List.mem_cons_of_mem p hd))
    simp [splitFirst, hp, ih']

/-- A successful `splitFirst` is a decomposition of the input list. -/
theorem splitFirst_some_eq (nm : String) (cs pre : List NexusChild)
    (c : NexusChild) (post : List NexusChild)
    (h : splitFirst nm cs = some (pre, c, post)) :
    cs = pre ++ c :: post := by
  induction cs generalizing pre c post with
  | nil => simp [splitFirst] at h
  | cons d ds ih =>
    rw [show splitFirst nm (d :: ds) =
        if d.name = nm then some ([], d, ds)
        else (splitFirst nm ds).map
          (fun pcs => (d :: pcs.1, pcs.2.1, pcs.2.2)) from rfl] at h
    by_cases hd : d.name = nm
    · rw [if_pos hd] at h
      simp only [Option.some.injEq, Prod.mk.injEq] at h
      obtain ⟨rfl, rfl, rfl⟩ := h
      rfl
    · rw [if_neg hd] at h
      simp only [Option.map_eq_some', Prod.mk.injEq] at h
      obtain ⟨⟨p', c', s'⟩, hsp, h1, rfl, rfl⟩ := h
      subst h1
      simp [ih p' c' s' hsp]

/-- First-match fault on a decomposed list faults exactly the match. -/
theorem faultFirst_append (nm : String) (pre : List NexusChild)
    (c : NexusChild) (post : List NexusChild)
    (hpre : ∀ d ∈ pre, d.name ≠ nm) (hc : c.name = nm) :
    faultFirst nm (pre ++ c :: post) =
      pre ++ { c with state := ChildState.Faulted } :: post := by
  induction pre with
  | nil => simp [faultFirst, hc]
  | cons p ps ih =>
    have hp : ¬ p.name = nm := hpre p (List.mem_cons_self p ps)
    have ih' := ih (fun d hd => hpre d (List.mem_cons_of_mem p hd))
    simp [faultFirst, hp, ih']

/-- First-match close on a decomposed list closes exactly the match. -/
theorem offlineFirst_append (nm : String) (pre : List NexusChild)
    (c : NexusChild) (post : List NexusChild)
    (hpre : ∀ d ∈ pre, d.name ≠ nm) (hc : c.name = nm) :
    offlineFirst nm (pre ++ c :: post) =
      (Except.ok (), pre ++ { c with state := ChildState.Closed } :: post) := by
  induction pre with
  | nil => simp [offlineFirst, hc, NexusChild.close]
  | cons p ps ih =>
    have hp : ¬ p.name = nm := hpre p (List.mem_cons_self p ps)
    have ih' := ih (fun d hd => hpre d (List.mem_cons_of_mem p hd))
    simp [offlineFirst, hp, ih']

/-- First-match open on a decomposed list whose match is Closed, carries a
handle and has enough blocks for the size: it opens exactly the match. -/
theorem onlineFirst_append (sz : Nat) (nm : String) (pre : List NexusChild)
    (c : NexusChild) (post : List NexusChild) (b : Bdev)
    (hpre : ∀ d ∈ pre, d.name ≠ nm) (hc : c.name = nm)
    (hstate : c.state = ChildState.Closed) (hbdev : c.bdev = some b)
    (hgeom : ¬ b.num_blocks * b.block_len < sz) :
    onlineFirst sz nm (pre ++ c :: post) =
      (Except.ok (), pre ++ { c with state := ChildState.Open } :: post) := by
  induction pre with
  | nil => simp [onlineFirst, hc, hstate, NexusChild.open, hbdev, hgeom]
  | cons p ps ih =>
    have hp : ¬ p.name = nm := hpre p (List.mem_cons_self p ps)
    have ih' := ih (fun d hd => hpre d (List.mem_cons_of_mem p hd))
    simp [onlineFirst, hp, ih']

/-! Claim C9 — `remove_child` on an absent uri. -/

/-- C9: for every uri that names no child in the list, `remove_child(uri)`
returns success and leaves the children list, `child_count`, the nexus
state (the whole nexus) and the registry unchanged. -/
theorem remove_child_absent_noop (env : Env) (n : Nexus) (reg : Registry)
    (uri : String) (h : ∀ c ∈ n.children, c.name ≠ uri) :
    Nexus.remove_child env n reg uri = (Except.ok (), n, reg) := by
  unfold Nexus.remove_child
  rw [splitFirst_eq_none uri n.children h]

/-- Witness for C9: `nx0` has no child named "zzz". -/
theorem remove_child_absent_noop_witness :
    (∀ c ∈ nx0.children, c.name ≠ "zzz") ∧
      Nexus.remove_child envA nx0 regA "zzz" = (Except.ok (), nx0, regA) :=
  ⟨by decide, remove_child_absent_noop envA nx0 regA "zzz" (by decide)⟩

/-! Claim C10 — `fault_child` ignores the target's current state. -/

/-- C10: `fault_child` performs no check of the target's state: when some
child bears the name, the first such child is set to `Faulted` whatever its
state was (the statement places no constraint on `c.state`) and the call
returns `Degraded` with the nexus marked `Degraded`; it returns `NotFound`
iff no child bears the name. -/
theorem fault_child_spec (n : Nexus) (nm : String) :
    ((∀ c ∈ n.children, c.name ≠ nm) →
      n.fault_child nm = (Except.error Error.NotFound, n)) ∧
    (∀ pre c post, n.children = pre ++ c :: post →
      (∀ d ∈ pre, d.name ≠ nm) → c.name = nm →
      n.fault_child nm =
        (Except.ok NexusState.Degraded,
          { n with
            children := pre ++ { c with state := ChildState.Faulted } :: post,
            state := NexusState.Degraded })) := by
  constructor
  · intro h
    have hany : n.children.any (fun c => c.name = nm) = false := by
      rw [List.any_eq_false]
      intro c hc
      simpa using h c hc
    simp [Nexus.fault_child, hany]
  · intro pre c post hsplit hpre hc
    have hany : n.children.any (fun c => c.name = nm) = true := by
      rw [List.any_eq_true]
      refine ⟨c, ?_, by simp [hc]⟩
      rw [hsplit]
      exact List.mem_append_right _ (List.mem_cons_self c post)
    rw [hsplit] at hany
    simp only [Nexus.fault_child, hany, if_true, hsplit,
      faultFirst_append nm pre c post hpre hc,
      Nexus.reconfigure, Nexus.set_state]

/-- Witness for C10: on `nx0`, faulting the absent "zzz" is `NotFound`,
and faulting the Open child "a" marks it `Faulted` and degrades the
nexus. -/
theorem fault_child_spec_witness :
    Nexus.fault_child nx0 "zzz" = (Except.error Error.NotFound, nx0) ∧
    Nexus.fault_child nx0 "a" =
      (Except.ok NexusState.Degraded,
        { nx0 with
          children := [] ++ { childA with state := ChildState.Faulted } :: [],
          state := NexusState.Degraded }) :=
  ⟨(fault_child_spec nx0 "zzz").1 (by decide),
   (fault_child_spec nx0 "a").2 [] childA [] rfl (by decide) rfl⟩

/-! Claim C3 — `remove_child` on an Open child. -/

/-- C3 counterexample: `childA` in `nx0` is Open, yet
`remove_child "a"` returns success, removes it and decrements
`child_count` — it does not return `Invalid "must close me"` and does not
leave the list unchanged. -/
theorem remove_child_open_child_is_removed :
    Nexus.remove_child envA nx0 regA "a" =
      (Except.ok (), { nx0 with children := [], child_count := 0 },
        ([] : Registry)) ∧
    childA.state = ChildState.Open :=
  ⟨rfl, rfl⟩

/-- C3 amended: `remove_child` on a present child first closes it itself;
as the (spec-modelled) `close` succeeds from any state and leaves the
child `Closed`, the child — Open included — is then removed,
`child_count` is decremented and the backing device destroyed, the call
returning success; the `Invalid "must close me"` guard is unreachable. -/
theorem remove_child_present_removes (env : Env) (n : Nexus)
    (reg : Registry) (uri : String) (pre : List NexusChild)
    (c : NexusChild) (post : List NexusChild) (dn : String) (db : Bdev)
    (hsplit : n.children = pre ++ c :: post)
    (hpre : ∀ d ∈ pre, d.name ≠ uri) (hc : c.name = uri)
    (henv : env c.name = some (dn, db)) :
    Nexus.remove_child env n reg uri =
      (Except.ok (),
        { n with children := pre ++ post,
                 child_count := n.child_count - 1 },
        reg.filter (fun p => p.1 ≠ dn)) := by
  unfold Nexus.remove_child
  rw [hsplit, splitFirst_append uri pre c post hpre hc]
  simp [NexusChild.close, NexusChild.destroy, bdev_destroy, henv]

/-- Witness for the amended C3 on the Open child of `nx0`. -/
theorem remove_child_present_removes_witness :
    Nexus.remove_child envA nx0 regA "a" =
      (Except.ok (),
        { nx0 with children := [] ++ [], child_count := nx0.child_count - 1 },
        regA.filter (fun p => p.1 ≠ "a")) :=
  remove_child_present_removes envA nx0 regA "a" [] childA [] "a" (b512 100)
    rfl (by decide) rfl rfl

/-! Claim C2 — `add_child` geometry acceptance. -/

/-- C2 (code bug): the candidate behind "aio://b" has the nexus's
`block_len` (512 = 512) and ample blocks (51200 / 512 = 100 ≤ 200), so the
spec's geometry rule accepts it; but `add_child`'s inverted comparison
`min_num_blocks() < child.num_blocks()` (100 < 200) flags "invalid
geometry", destroys the freshly created device, falls through, and ends
with `Internal "child does not exist"`; the child is not appended. -/
theorem add_child_rejects_larger_child :
    Nexus.add_child envB nx0 regA "aio://b" =
      (Except.error (Error.Internal "child does not exist"), nx0, regA) ∧
    (b512 200).block_len = nx0.bdev.block_len ∧
    nx0.size / nx0.bdev.block_len ≤ (b512 200).num_blocks :=
  ⟨rfl, rfl, by decide⟩

/-! Claim C4 — the `child_count == |children|` cache. -/

/-- The cached-count invariant of claim C4. -/
def countInv (w : World) : Prop :=
  w.nexus.child_count = w.nexus.children.length

instance (w : World) : Decidable (countInv w) := by
  unfold countInv; infer_instance

/-- Whether an operation is `register_children`. -/
def MemberOp.isRegChildren : MemberOp → Bool
  | MemberOp.regChildren _ => true
  | _ => false

/-- An empty nexus in the Init phase, with an equal (zero) cache. -/
def nxEmpty : Nexus :=
  { name := "nx", size := 0, state := NexusState.Init,
    bdev := { block_len := 0, num_blocks := 0, alignment := 0 },
    children := [], child_count := 0 }

/-- The initial world: the empty Init nexus and an empty registry. -/
def w0 : World := { nexus := nxEmpty, reg := [] }

/-- `register_children` keeps the cache right only from an empty list:
it assigns `child_count := |uris|` while appending to `children`. -/
theorem register_children_count (n : Nexus) (reg : Registry)
    (uris : List String) (h : n.child_count = n.children.length)
    (hnil : n.children = []) :
    (n.register_children reg uris).child_count =
      (n.register_children reg uris).children.length := by
  unfold Nexus.register_children
  split
  · simp [hnil]
  · exact h

/-- `register_child` preserves the cache: every branch either leaves the
nexus unchanged or appends one child and increments the count. -/
theorem register_child_count (env : Env) (n : Nexus) (reg : Registry)
    (uri : String) (h : n.child_count = n.children.length) :
    (Nexus.register_child env n reg uri).2.1.child_count =
      (Nexus.register_child env n reg uri).2.1.children.length := by
  unfold Nexus.register_child
  split
  · split
    · exact h
    · simp [h]
  · exact h

/-- `add_child` preserves the cache: every failure branch returns the
nexus unchanged; the success branch appends one child and increments. -/
theorem add_child_count (env : Env) (n : Nexus) (reg : Registry)
    (uri : String) (h : n.child_count = n.children.length) :
    (Nexus.add_child env n reg uri).2.1.child_count =
      (Nexus.add_child env n reg uri).2.1.children.length := by
  unfold Nexus.add_child
  repeat' split
  all_goals simp_all
  all_goals (repeat' split)
  all_goals simp_all [Nexus.set_state]

/-- `remove_child` preserves the cache: the affected branches either keep
the list's length or remove one child together with one count. -/
theorem remove_child_count (env : Env) (n : Nexus) (reg : Registry)
    (uri : String) (h : n.child_count = n.children.length) :
    (Nexus.remove_child env n reg uri).2.1.child_count =
      (Nexus.remove_child env n reg uri).2.1.children.length := by
  unfold Nexus.remove_child
  split
  · exact h
  · rename_i pre c post heq
    have hlist := splitFirst_some_eq uri n.children pre c post heq
    rw [hlist] at h
    simp only [List.length_append, List.length_cons] at h
    repeat' split
    all_goals simp_all [NexusChild.close]

/-- C4 counterexample: from the empty Init world (`child_count =
|children| = 0`), `register_child "a"` followed by
`register_children ["b"]` leaves `child_count = 1` but two children:
`register_children` assigns `child_count := |uris|` instead of adding it
to the existing count. -/
theorem child_count_diverges_after_register_children :
    (World.run envA w0
      [MemberOp.regChild "a", MemberOp.regChildren ["b"]]).nexus.child_count
        = 1 ∧
    (World.run envA w0
      [MemberOp.regChild "a", MemberOp.regChildren ["b"]]).nexus.children.length
        = 2 ∧
    countInv w0 :=
  ⟨rfl, rfl, rfl⟩

/-- C4 amended: `child_count = |children|` is preserved by every
`register_child`, `add_child` and `remove_child` step, and hence by every
sequence of them, starting from a state where it holds;
`register_children` preserves it only when the children list is empty at
the call (it assigns the count rather than adding). -/
theorem child_count_matches_length (env : Env) :
    (∀ w uri, countInv w →
      countInv (World.step env w (MemberOp.regChild uri))) ∧
    (∀ w uri, countInv w →
      countInv (World.step env w (MemberOp.addChild uri))) ∧
    (∀ w uri, countInv w →
      countInv (World.step env w (MemberOp.removeChild uri))) ∧
    (∀ w uris, countInv w → w.nexus.children = [] →
      countInv (World.step env w (MemberOp.regChildren uris))) ∧
    (∀ w ops, countInv w → (∀ op ∈ ops, op.isRegChildren = false) →
      countInv (World.run env w ops)) := by
  have hreg : ∀ w uri, countInv w →
      countInv (World.step env w (MemberOp.regChild uri)) := by
    intro w uri h
    have hc := register_child_count env w.nexus w.reg uri h
    rcases hp : Nexus.register_child env w.nexus w.reg uri with ⟨r, n2, reg2⟩
    rw [hp] at hc
    simpa [World.step, hp, countInv] using hc
  have hadd : ∀ w uri, countInv w →
      countInv (World.step env w (MemberOp.addChild uri)) := by
    intro w uri h
    have hc := add_child_count env w.nexus w.reg uri h
    rcases hp : Nexus.add_child env w.nexus w.reg uri with ⟨r, n2, reg2⟩
    rw [hp] at hc
    simpa [World.step, hp, countInv] using hc
  have hrem : ∀ w uri, countInv w →
      countInv (World.step env w (MemberOp.removeChild uri)) := by
    intro w uri h
    have hc := remove_child_count env w.nexus w.reg uri h
    rcases hp : Nexus.remove_child env w.nexus w.reg uri with ⟨r, n2, reg2⟩
    rw [hp] at hc
    simpa [World.step, hp, countInv] using hc
  refine ⟨hreg, hadd, hrem, ?_, ?_⟩
  · intro w uris h hnil
    have hc := register_children_count w.nexus w.reg uris h hnil
    simpa [World.step, countInv] using hc
  · intro w ops h hops
    induction ops generalizing w with
    | nil => simpa [World.run] using h
    | cons op ops ih =>
      have hop : op.isRegChildren = false := hops op (List.mem_cons_self op ops)
      have hstep : countInv (World.step env w op) := by
        cases op with
        | regChildren uris => simp [MemberOp.isRegChildren] at hop
        | regChild uri => exact hreg w uri h
        | addChild uri => exact hadd w uri h
        | removeChild uri => exact hrem w uri h
      have := ih (World.step env w op) hstep
        (fun o ho => hops o (List.mem_cons_of_mem op ho))
      simpa [World.run] using this

/-- Witness for the amended C4: a run of the three preserving operations
from the empty world keeps the cache equal to the list length. -/
theorem child_count_matches_length_witness :
    countInv (World.run envA w0
      [MemberOp.regChild "a", MemberOp.removeChild "a",
        MemberOp.addChild "q"]) :=
  (child_count_matches_length envA).2.2.2.2 w0
    [MemberOp.regChild "a", MemberOp.removeChild "a", MemberOp.addChild "q"]
    (by decide) (by decide)

/-! Claim C5 — successful `add_child` appends a Faulted child, Degraded. -/

/-- C5: whenever `add_child` returns successfully, the returned state is
`Degraded`, the nexus is marked `Degraded`, and the newly appended child
is in state `Faulted` (with the count bumped). -/
theorem add_child_success_spec (env : Env) (n : Nexus) (reg : Registry)
    (uri : String) (st : NexusState) (n2 : Nexus) (reg2 : Registry)
    (h : Nexus.add_child env n reg uri = (Except.ok st, n2, reg2)) :
    st = NexusState.Degraded ∧ n2.state = NexusState.Degraded ∧
    ∃ c, n2.children = n.children ++ [c] ∧ c.state = ChildState.Faulted ∧
      n2.child_count = n.child_count + 1 := by
  unfold Nexus.add_child at h
  repeat' split at h
  all_goals simp_all [Nexus.set_state]
  all_goals (repeat' split at h)
  all_goals simp_all
  all_goals obtain ⟨h1, h2, h3⟩ := h
  all_goals subst h1
  all_goals subst h2
  all_goals exact ⟨rfl, _, rfl, rfl, rfl⟩

/-- A 300-block Open child named "a". -/
def child300 : NexusChild :=
  { name := "a", parent := "nx", bdev := some (b512 300),
    state := ChildState.Open }

/-- An Open nexus whose sole child is `child300`; `min_num_blocks = 300`,
so the inverted pre-check of `add_child` passes for a 200-block device. -/
def nx5 : Nexus :=
  { name := "nx", size := 51200, state := NexusState.Open,
    bdev := { block_len := 512, num_blocks := 100, alignment := 0 },
    children := [child300], child_count := 1 }

/-- The registry holding `child300`'s backing device. -/
def regB5 : Registry := [("a", b512 300)]

/-- The nexus after the successful `add_child "aio://b"` on `nx5`. -/
def nxAfterAdd : Nexus := (Nexus.add_child envB nx5 regB5 "aio://b").2.1

/-- The registry after the successful `add_child "aio://b"` on `nx5`. -/
def regAfterAdd : Registry := (Nexus.add_child envB nx5 regB5 "aio://b").2.2

/-- Witness for C5: adding "aio://b" (200 blocks, block_len 512) to `nx5`
(one 300-block Open child, so the inverted pre-check passes) succeeds. -/
theorem add_child_success_spec_witness :
    nxAfterAdd.state = NexusState.Degraded ∧
    NexusState.Degraded = NexusState.Degraded ∧
    ∃ c, nxAfterAdd.children = nx5.children ++ [c] ∧
      c.state = ChildState.Faulted ∧
      nxAfterAdd.child_count = nx5.child_count + 1 :=
  have h := add_child_success_spec envB nx5 regB5 "aio://b"
    NexusState.Degraded nxAfterAdd regAfterAdd rfl
  ⟨h.2.1, h.1 ▸ rfl, h.2.2⟩

/-! Claim C6 — `min_num_blocks`. -/

/-- The fold in `min_num_blocks` computes a value that is at most the
start, is a lower bound of the list, and equals the start or lies in the
list. -/
theorem minFold_spec (l : List Nat) (a : Nat) :
    l.foldl (fun blockcnt s => if s < blockcnt then s else blockcnt) a ≤ a ∧
    (∀ x ∈ l,
      l.foldl (fun blockcnt s => if s < blockcnt then s else blockcnt) a ≤ x) ∧
    (l.foldl (fun blockcnt s => if s < blockcnt then s else blockcnt) a = a ∨
      l.foldl (fun blockcnt s => if s < blockcnt then s else blockcnt) a ∈ l) := by
  induction l generalizing a with
  | nil => exact ⟨Nat.le_refl a, by simp, Or.inl rfl⟩
  | cons x xs ih =>
    simp only [List.foldl_cons]
    obtain ⟨h1, h2, h3⟩ := ih (if x < a then x else a)
    have hxa : (if x < a then x else a) ≤ a := by split <;> omega
    have hxx : (if x < a then x else a) ≤ x := by split <;> omega
    refine ⟨Nat.le_trans h1 hxa, ?_, ?_⟩
    · intro y hy
      rcases List.mem_cons.mp hy with rfl | hy
      · exact Nat.le_trans h1 hxx
      · exact h2 y hy
    · rcases h3 with h3 | h3
      · by_cases hx : x < a
        · rw [h3, if_pos hx]
          exact Or.inr (List.mem_cons_self x xs)
        · rw [h3, if_neg hx]
          exact Or.inl rfl
      · exact Or.inr (List.mem_cons_of_mem x h3)

/-- C6: `min_num_blocks()` is the minimum of `num_blocks` over the Open
children — a lower bound on every Open child's block count, attained by
some Open child whenever one exists — and equals `u64::MAX` when no child
is Open.  (The hypothesis supplies the handle the source unwraps on each
Open child, with its `u64`-bounded block count.) -/
theorem min_num_blocks_spec (n : Nexus)
    (hb : ∀ c ∈ n.children, c.state = ChildState.Open →
      ∃ b, c.bdev = some b ∧ b.num_blocks ≤ U64MAX) :
    ((∀ c ∈ n.children, c.state ≠ ChildState.Open) →
      n.min_num_blocks = U64MAX) ∧
    (∀ c ∈ n.children, c.state = ChildState.Open → ∀ b, c.bdev = some b →
      n.min_num_blocks ≤ b.num_blocks) ∧
    ((∃ c ∈ n.children, c.state = ChildState.Open) →
      ∃ c ∈ n.children, c.state = ChildState.Open ∧
        ∃ b, c.bdev = some b ∧ b.num_blocks = n.min_num_blocks) := by
  refine ⟨?_, ?_, ?_⟩
  · intro h
    have hfil : n.children.filter (fun c => c.state = ChildState.Open) = [] := by
      rw [List.filter_eq_nil_iff]
      intro c hc
      simpa using h c hc
    unfold Nexus.min_num_blocks
    rw [hfil]
    rfl
  · intro c hc hopen b hbdev
    have hmem : c ∈ n.children.filter (fun c => c.state = ChildState.Open) :=
      List.mem_filter.mpr ⟨hc, by simp [hopen]⟩
    have hval : b.num_blocks ∈
        (n.children.filter (fun c => c.state = ChildState.Open)).map
          (fun c => (c.bdev.map Bdev.num_blocks).getD 0) := by
      have := List.mem_map_of_mem
        (fun c => ((c : NexusChild).bdev.map Bdev.num_blocks).getD 0) hmem
      simpa [hbdev] using this
    exact (minFold_spec _ U64MAX).2.1 b.num_blocks hval
  · rintro ⟨c, hc, hopen⟩
    obtain ⟨b, hbdev, hle⟩ := hb c hc hopen
    have hmem : c ∈ n.children.filter (fun c => c.state = ChildState.Open) :=
      List.mem_filter.mpr ⟨hc, by simp [hopen]⟩
    have hval : b.num_blocks ∈
        (n.children.filter (fun c => c.state = ChildState.Open)).map
          (fun c => (c.bdev.map Bdev.num_blocks).getD 0) := by
      have := List.mem_map_of_mem
        (fun c => ((c : NexusChild).bdev.map Bdev.num_blocks).getD 0) hmem
      simpa [hbdev] using this
    obtain ⟨hstart, hlow, hatt⟩ := minFold_spec
      ((n.children.filter (fun c => c.state = ChildState.Open)).map
        (fun c => (c.bdev.map Bdev.num_blocks).getD 0)) U64MAX
    rcases hatt with hatt | hatt
    · refine ⟨c, hc, hopen, b, hbdev, ?_⟩
      have h1 : n.min_num_blocks ≤ b.num_blocks := hlow b.num_blocks hval
      have h2 : n.min_num_blocks = U64MAX := by
        unfold Nexus.min_num_blocks
        exact hatt
      omega
    · obtain ⟨d, hd, hdval⟩ := List.mem_map.mp hatt
      obtain ⟨hdmem, hdopen⟩ := List.mem_filter.mp hd
      have hdopen' : d.state = ChildState.Open := by simpa using hdopen
      obtain ⟨bd, hbd, _⟩ := hb d hdmem hdopen'
      refine ⟨d, hdmem, hdopen', bd, hbd, ?_⟩
      unfold Nexus.min_num_blocks
      rw [← hdval]
      simp [hbd]

/-- Witness for C6: on `nx0` the minimum over Open children is a lower
bound on its Open child's 100-block device. -/
theorem min_num_blocks_spec_witness :
    nx0.min_num_blocks ≤ (b512 100).num_blocks :=
  (min_num_blocks_spec nx0 (by decide)).2.1 childA (by decide) (by decide)
    (b512 100) rfl

/-! Claim C8 — the online-then-offline round trip. -/

/-- A Closed child without a resolved handle. -/
def childNoHandle : NexusChild :=
  { name := "a", parent := "nx", bdev := none, state := ChildState.Closed }

/-- An Open nexus whose sole child is Closed and handle-less. -/
def nxC : Nexus :=
  { name := "nx", size := 51200, state := NexusState.Open,
    bdev := { block_len := 512, num_blocks := 100, alignment := 0 },
    children := [childNoHandle], child_count := 1 }

/-- C8 counterexample: the child "a" of `nxC` is present and Closed, yet
`online_child "a"` fails (`DeviceGone`: open requires a resolved handle)
and leaves the nexus in `Open`, not `Degraded` — the claimed sequence does
not succeed for every present Closed child. -/
theorem online_child_closed_child_may_fail :
    Nexus.online_child nxC "a" = (Except.error Error.DeviceGone, nxC) ∧
    childNoHandle.state = ChildState.Closed ∧
    nxC.state ≠ NexusState.Degraded :=
  ⟨rfl, rfl, by decide⟩

/-- C8 amended: for a present Closed child carrying a handle whose
geometry admits the nexus size (`size ≤ num_blocks × block_len`),
`online_child(name)` succeeds with `Degraded` and a then `offline_child
(name)` succeeds with `Degraded`, leaving that child `Closed` and the
nexus `Degraded`. -/
theorem online_offline_roundtrip (n : Nexus) (pre : List NexusChild)
    (c : NexusChild) (post : List NexusChild) (b : Bdev)
    (hsplit : n.children = pre ++ c :: post)
    (hpre : ∀ d ∈ pre, d.name ≠ c.name)
    (hstate : c.state = ChildState.Closed) (hbdev : c.bdev = some b)
    (hgeom : n.size ≤ b.num_blocks * b.block_len) :
    n.online_child c.name =
      (Except.ok NexusState.Degraded,
        { n with
          children := pre ++ { c with state := ChildState.Open } :: post,
          state := NexusState.Degraded }) ∧
    (n.online_child c.name).2.offline_child c.name =
      (Except.ok NexusState.Degraded,
        { n with
          children := pre ++ { c with state := ChildState.Closed } :: post,
          state := NexusState.Degraded }) := by
  have hgeom2 : ¬ b.num_blocks * b.block_len < n.size := by omega
  have hon := onlineFirst_append n.size c.name pre c post b hpre rfl
    hstate hbdev hgeom2
  have h1 : n.online_child c.name =
      (Except.ok NexusState.Degraded,
        { n with
          children := pre ++ { c with state := ChildState.Open } :: post,
          state := NexusState.Degraded }) := by
    unfold Nexus.online_child
    rw [hsplit, hon]
    simp [Nexus.reconfigure, Nexus.set_state]
  refine ⟨h1, ?_⟩
  rw [h1]
  have hoff := offlineFirst_append c.name pre
    { c with state := ChildState.Open } post hpre rfl
  unfold Nexus.offline_child
  rw [show ({ n with
      children := pre ++ { c with state := ChildState.Open } :: post,
      state := NexusState.Degraded } : Nexus).children =
      pre ++ { c with state := ChildState.Open } :: post from rfl, hoff]
  simp [Nexus.reconfigure, Nexus.set_state]

/-- A Closed child named "a" with a 200-block handle. -/
def childClosed200 : NexusChild :=
  { name := "a", parent := "nx", bdev := some (b512 200),
    state := ChildState.Closed }

/-- An Open nexus whose sole child is `childClosed200`. -/
def nxD : Nexus :=
  { name := "nx", size := 51200, state := NexusState.Open,
    bdev := { block_len := 512, num_blocks := 100, alignment := 0 },
    children := [childClosed200], child_count := 1 }

/-- Witness for the amended C8 on `nxD` (51200 ≤ 200 × 512). -/
theorem online_offline_roundtrip_witness :
    nxD.online_child "a" =
      (Except.ok NexusState.Degraded,
        { nxD with
          children :=
            [] ++ { childClosed200 with state := ChildState.Open } :: [],
          state := NexusState.Degraded }) ∧
    (nxD.online_child "a").2.offline_child "a" =
      (Except.ok NexusState.Degraded,
        { nxD with
          children :=
            [] ++ { childClosed200 with state := ChildState.Closed } :: [],
          state := NexusState.Degraded }) :=
  online_offline_roundtrip nxD [] childClosed200 [] (b512 200) rfl
    (by decide) rfl rfl (by decide)

/-! Claim C7 — `update_child_labels`. -/

/-- An `Except` converts to `some x` exactly when it is `ok x`. -/
theorem except_toOption_eq_some (e : Except Error NexusLabel)
    (x : NexusLabel) : e.toOption = some x ↔ e = Except.ok x := by
  cases e <;> simp [Except.toOption]

/-- A label is among the successfully probed ones iff some child's probe
returned it. -/
theorem mem_probed_labels (probe : NexusChild → Except Error NexusLabel)
    (cs : List NexusChild) (x : NexusLabel) :
    x ∈ (cs.map probe).filterMap Except.toOption ↔
      ∃ c ∈ cs, probe c = Except.ok x := by
  rw [List.filterMap_map]
  simp [List.mem_filterMap, except_toOption_eq_some]

/-- When every probe returns `L`, the probed-label list is constantly
`L`. -/
theorem probed_labels_all_ok (probe : NexusChild → Except Error NexusLabel)
    (cs : List NexusChild) (L : NexusLabel)
    (h : ∀ c ∈ cs, probe c = Except.ok L) :
    (cs.map probe).filterMap Except.toOption = cs.map (fun _ => L) := by
  induction cs with
  | nil => rfl
  | cons c cs ih =>
    have hc := h c (List.mem_cons_self c cs)
    have ih2 := ih (fun d hd => h d (List.mem_cons_of_mem c hd))
    simp [List.filterMap_cons, hc, Except.toOption, ih2]

/-- The last element of a list whose tail is constantly its head. -/
theorem getLast_all_eq (l0 : NexusLabel) (ls : List NexusLabel)
    (h : ∀ l ∈ ls, l = l0) :
    List.getLast (l0 :: ls) (List.cons_ne_nil l0 ls) = l0 := by
  induction ls generalizing l0 with
  | nil => rfl
  | cons a as ih =>
    have ha : a = l0 := h a (List.mem_cons_self a as)
    rw [List.getLast_cons (List.cons_ne_nil a as)]
    have has : ∀ l ∈ as, l = a := by
      intro l hl
      rw [h l (List.mem_cons_of_mem a hl), ha]
    rw [ih a has, ha]

/-- C7: for a nexus with at least one child (the source's final
`ret.pop().unwrap()` panics on an empty list), `update_child_labels`
returns the label `L` iff every child's probe succeeded with exactly `L`;
a probe failure or any disagreement yields an error instead. -/
theorem update_child_labels_spec
    (probe : NexusChild → Except Error NexusLabel) (n : Nexus)
    (hne : n.children ≠ []) (L : NexusLabel) :
    Nexus.update_child_labels probe n = Except.ok L ↔
      ∀ c ∈ n.children, probe c = Except.ok L := by
  unfold Nexus.update_child_labels
  by_cases herr : (n.children.map probe).any (fun r => !r.isOk) = true
  · rw [if_pos herr]
    constructor
    · intro h
      exact absurd h (by simp)
    · intro hall
      rw [List.any_eq_true] at herr
      obtain ⟨r, hr, hnot⟩ := herr
      obtain ⟨c, hc, rfl⟩ := List.mem_map.mp hr
      rw [hall c hc] at hnot
      simp [Except.isOk, Except.toBool] at hnot
  · rw [if_neg herr]
    have hok : ∀ c ∈ n.children, (probe c).isOk = true := by
      intro c hc
      by_contra hbad
      apply herr
      rw [List.any_eq_true]
      exact ⟨probe c, List.mem_map_of_mem probe hc, by simpa using hbad⟩
    rcases hlab : (n.children.map probe).filterMap Except.toOption with
      _ | ⟨l0, ls⟩
    · exfalso
      obtain ⟨c0, cs0, hcons⟩ := List.exists_cons_of_ne_nil hne
      have hc0 : c0 ∈ n.children := by
        rw [hcons]
        exact List.mem_cons_self c0 cs0
      have h0 := hok c0 hc0
      obtain ⟨x, hx⟩ : ∃ x, probe c0 = Except.ok x := by
        cases hpc : probe c0 <;> simp [hpc, Except.isOk, Except.toBool] at h0 ⊢
      have hxmem : x ∈ (n.children.map probe).filterMap Except.toOption :=
        (mem_probed_labels probe n.children x).mpr ⟨c0, hc0, hx⟩
      rw [hlab] at hxmem
      simp at hxmem
    · dsimp only
      by_cases hdiff : ls.any (fun l => l ≠ l0) = true
      · rw [if_pos hdiff]
        constructor
        · intro h
          exact absurd h (by simp)
        · intro hall
          have hconst := probed_labels_all_ok probe n.children L hall
          rw [hlab] at hconst
          rw [List.any_eq_true] at hdiff
          obtain ⟨l, hl, hlne⟩ := hdiff
          have hmem0 : ∀ y ∈ l0 :: ls, y = L := by
            intro y hy
            have : y ∈ n.children.map (fun _ => L) := hconst ▸ hy
            obtain ⟨_, _, hyL⟩ := List.mem_map.mp this
            exact hyL.symm
          have h1 : l = L := hmem0 l (List.mem_cons_of_mem l0 hl)
          have h2 : l0 = L := hmem0 l0 (List.mem_cons_self l0 ls)
          simp [h1, h2] at hlne
      · rw [if_neg hdiff]
        have hconst : ∀ l ∈ ls, l = l0 := by
          intro l hl
          by_contra hlne
          apply hdiff
          rw [List.any_eq_true]
          exact ⟨l, hl, by simpa using hlne⟩
        rw [getLast_all_eq l0 ls hconst]
        constructor
        · intro h
          have hL : l0 = L := by simpa using h
          intro c hc
          have h0 := hok c hc
          obtain ⟨x, hx⟩ : ∃ x, probe c = Except.ok x := by
            cases hpc : probe c <;> simp [hpc, Except.isOk, Except.toBool] at h0 ⊢
          have : x ∈ (n.children.map probe).filterMap Except.toOption :=
            (mem_probed_labels probe n.children x).mpr ⟨c, hc, hx⟩
          rw [hlab] at this
          rcases List.mem_cons.mp this with rfl | hxls
          · rw [hx, hL]
          · rw [hx, hconst x hxls, hL]
        · intro hall
          have hconst2 := probed_labels_all_ok probe n.children L hall
          rw [hlab] at hconst2
          have : l0 ∈ n.children.map (fun _ => L) :=
            hconst2 ▸ List.mem_cons_self l0 ls
          obtain ⟨_, _, hyL⟩ := List.mem_map.mp this
          rw [← hyL]

/-- A probe that answers label 7 for every child. -/
def probe7 : NexusChild → Except Error NexusLabel :=
  fun _ => Except.ok ⟨7⟩

/-- Witness for C7 on `nx0` with the constant probe. -/
theorem update_child_labels_spec_witness :
    (nx0.children ≠ []) ∧
    (Nexus.update_child_labels probe7 nx0 = Except.ok ⟨7⟩ ↔
      ∀ c ∈ nx0.children, probe7 c = Except.ok ⟨7⟩) :=
  ⟨by decide, update_child_labels_spec probe7 nx0 (by decide) ⟨7⟩⟩

/-! Claim C1 — `try_open_children`.  Support lemmas first: a case
analysis of the modelled `NexusChild::open`, the list of names that opened
during the attempt, and the compensation fold. -/

/-- Case analysis of `NexusChild.open`: success, geometry failure, missing
handle, or wrong state. -/
theorem open_total (sz : Nat) (c : NexusChild) :
    (∃ b, c.bdev = some b ∧
      (c.state = ChildState.Init ∨ c.state = ChildState.Closed) ∧
      ¬ b.num_blocks * b.block_len < sz ∧
      NexusChild.open sz c =
        (Except.ok c.name, { c with state := ChildState.Open })) ∨
    (∃ b, c.bdev = some b ∧
      (c.state = ChildState.Init ∨ c.state = ChildState.Closed) ∧
      b.num_blocks * b.block_len < sz ∧
      NexusChild.open sz c =
        (Except.error Error.GeometryMismatch,
          { c with state := ChildState.ConfigInvalid })) ∨
    (c.bdev = none ∧
      NexusChild.open sz c = (Except.error Error.DeviceGone, c)) ∨
    (¬ (c.state = ChildState.Init ∨ c.state = ChildState.Closed) ∧
      NexusChild.open sz c = (Except.error Error.AlreadyOpen, c)) := by
  rcases hb : c.bdev with _ | b
  · refine Or.inr (Or.inr (Or.inl ⟨rfl, ?_⟩))
    unfold NexusChild.open
    rw [hb]
  · by_cases hst : c.state = ChildState.Init ∨ c.state = ChildState.Closed
    · by_cases hg : b.num_blocks * b.block_len < sz
      · refine Or.inr (Or.inl ⟨b, rfl, hst, hg, ?_⟩)
        unfold NexusChild.open
        rw [hb]
        simp [hst, hg]
      · refine Or.inl ⟨b, rfl, hst, hg, ?_⟩
        unfold NexusChild.open
        rw [hb]
        simp [hst, hg]
    · refine Or.inr (Or.inr (Or.inr ⟨hst, ?_⟩))
      unfold NexusChild.open
      rw [hb]
      simp [hst]

/-- Opening never changes a child's name. -/
theorem open_snd_name (sz : Nat) (c : NexusChild) :
    (NexusChild.open sz c).2.name = c.name := by
  rcases open_total sz c with ⟨b, _, _, _, he⟩ | ⟨b, _, _, _, he⟩ |
    ⟨_, he⟩ | ⟨_, he⟩ <;> rw [he]

/-- Opening never changes a child's handle. -/
theorem open_snd_bdev (sz : Nat) (c : NexusChild) :
    (NexusChild.open sz c).2.bdev = c.bdev := by
  rcases open_total sz c with ⟨b, _, _, _, he⟩ | ⟨b, _, _, _, he⟩ |
    ⟨_, he⟩ | ⟨_, he⟩ <;> rw [he]

/-- When the open succeeds it returns the child's name and opens it. -/
theorem open_of_openOk (sz : Nat) (c : NexusChild)
    (h : NexusChild.openOk sz c = true) :
    NexusChild.open sz c =
      (Except.ok c.name, { c with state := ChildState.Open }) := by
  unfold NexusChild.openOk at h
  rcases open_total sz c with ⟨b, _, _, _, he⟩ | ⟨b, _, _, _, he⟩ |
    ⟨_, he⟩ | ⟨_, he⟩
  · exact he
  all_goals rw [he] at h
  all_goals simp [Except.isOk, Except.toBool] at h

/-- When the open fails the child is unchanged or sent to
`ConfigInvalid`. -/
theorem open_of_not_openOk (sz : Nat) (c : NexusChild)
    (h : NexusChild.openOk sz c = false) :
    (NexusChild.open sz c).2 = { c with state := ChildState.ConfigInvalid } ∨
    (NexusChild.open sz c).2 = c := by
  unfold NexusChild.openOk at h
  rcases open_total sz c with ⟨b, _, _, _, he⟩ | ⟨b, _, _, _, he⟩ |
    ⟨_, he⟩ | ⟨_, he⟩
  · rw [he] at h
    simp [Except.isOk, Except.toBool] at h
  · rw [he]
    exact Or.inl rfl
  · rw [he]
    exact Or.inr rfl
  · rw [he]
    exact Or.inr rfl

/-- An `Except` that is not ok converts to no option. -/
theorem toOption_eq_none_of_not_isOk {α : Type} (e : Except Error α)
    (h : e.isOk = false) : e.toOption = none := by
  cases e <;> simp_all [Except.isOk, Except.toBool, Except.toOption]

/-- The names collected from the successful opens are exactly the names of
the children whose open succeeds. -/
theorem opened_names_eq (sz : Nat) (cs : List NexusChild) :
    (cs.map (fun c => NexusChild.open sz c)).filterMap
        (fun r => (r.1).toOption) =
      (cs.filter (fun c => NexusChild.openOk sz c)).map NexusChild.name := by
  induction cs with
  | nil => rfl
  | cons c cs ih =>
    rw [List.map_cons]
    by_cases h : NexusChild.openOk sz c = true
    · have he := open_of_openOk sz c h
      rw [List.filterMap_cons, ih, he]
      simp [Except.toOption, List.filter_cons, h]
    · have h2 : NexusChild.openOk sz c = false := by
        simpa using h
      rw [List.filterMap_cons, ih]
      rw [show ((NexusChild.open sz c).1).toOption = none from
        toOption_eq_none_of_not_isOk _ h2]
      simp [List.filter_cons, h2]

/-- With pairwise-distinct names, closing the first match by name is the
pointwise close of every child bearing that name. -/
theorem closeFirst_eq_map (nm : String) (cs : List NexusChild)
    (hnd : (cs.map NexusChild.name).Nodup) :
    closeFirst nm cs =
      cs.map (fun c =>
        if c.name = nm then { c with state := ChildState.Closed } else c) := by
  induction cs with
  | nil => rfl
  | cons c cs ih =>
    rw [List.map_cons, List.nodup_cons] at hnd
    obtain ⟨hnotin, hnd2⟩ := hnd
    by_cases hc : c.name = nm
    · have hne : ∀ d ∈ cs, ¬ d.name = nm := by
        intro d hd hdn
        apply hnotin
        rw [hc, ← hdn]
        exact List.mem_map_of_mem NexusChild.name hd
      have hmap : cs.map (fun d =>
          if d.name = nm then { d with state := ChildState.Closed } else d)
            = cs := by
        rw [show cs = cs.map id by simp]
        rw [List.map_map]
        apply List.map_congr_left
        intro d hd
        simp [hne d (by simpa using hd)]
      simp [closeFirst, hc, NexusChild.close, hmap]
    · simp [closeFirst, hc, ih hnd2]

/-- With pairwise-distinct names, the compensation fold closes exactly the
children whose names were collected. -/
theorem closeAll_eq_map (names : List String) (cs : List NexusChild)
    (hnd : (cs.map NexusChild.name).Nodup) :
    names.foldl (fun cs nm => closeFirst nm cs) cs =
      cs.map (fun c =>
        if c.name ∈ names then { c with state := ChildState.Closed }
        else c) := by
  induction names generalizing cs with
  | nil =>
    simp only [List.foldl_nil, List.not_mem_nil, if_false]
    rw [show cs = cs.map id by simp]
    rw [List.map_map]
    apply List.map_congr_left
    intro d hd
    simp
  | cons nm names ih =>
    rw [List.foldl_cons, closeFirst_eq_map nm cs hnd]
    have hcomp : (NexusChild.name ∘ fun c =>
        if c.name = nm then { c with state := ChildState.Closed } else c) =
          NexusChild.name := by
      funext c
      by_cases hc : c.name = nm <;> simp [hc]
    have hnd2 : ((cs.map (fun c =>
        if c.name = nm then { c with state := ChildState.Closed } else c)).map
          NexusChild.name).Nodup := by
      rw [List.map_map, hcomp]
      exact hnd
    rw [ih _ hnd2, List.map_map]
    apply List.map_congr_left
    intro c _
    by_cases h1 : c.name = nm <;> by_cases h2 : c.name ∈ names <;>
      simp [h1, h2, Function.comp]

/-- The alignment fold at the end of `try_open_children` never changes the
recorded block length. -/
theorem foldAlignment_block_len (b : Bdev) (cs : List NexusChild) :
    (foldAlignment b cs).block_len = b.block_len := by
  induction cs generalizing b with
  | nil => rfl
  | cons c cs ih =>
    rw [show foldAlignment b (c :: cs) =
      foldAlignment
        (if b.alignment < (c.bdev.map Bdev.alignment).getD 0 then
          { b with alignment := (c.bdev.map Bdev.alignment).getD 0 }
         else b) cs from rfl]
    rw [ih]
    split <;> rfl

/-- The names of the post-open children are the original names. -/
theorem open_map_names (sz : Nat) (cs : List NexusChild) :
    (((cs.map (fun c => NexusChild.open sz c)).map Prod.snd).map
        NexusChild.name) = cs.map NexusChild.name := by
  rw [List.map_map, List.map_map]
  apply List.map_congr_left
  intro c _
  exact open_snd_name sz c

/-- With pairwise-distinct names, a child's name was collected from the
open phase iff its own open succeeded. -/
theorem name_mem_opened_iff (sz : Nat) (cs : List NexusChild)
    (hnd : (cs.map NexusChild.name).Nodup) (c : NexusChild) (hc : c ∈ cs) :
    (c.name ∈ (cs.filter (fun c => NexusChild.openOk sz c)).map
        NexusChild.name) ↔ NexusChild.openOk sz c = true := by
  constructor
  · intro hmem
    obtain ⟨d, hd, hdn⟩ := List.mem_map.mp hmem
    obtain ⟨hdmem, hdok⟩ := List.mem_filter.mp hd
    have : d = c := List.inj_on_of_nodup_map hnd hdmem hc hdn
    rw [← this]
    exact hdok
  · intro hok
    exact List.mem_map_of_mem NexusChild.name
      (List.mem_filter.mpr ⟨hc, hok⟩)

/-- After a failed open phase, the compensated children list is,
pointwise over the original children: the opened-then-closed child when
its open succeeded, and whatever its open left behind otherwise. -/
theorem compensated_children_eq (sz : Nat) (cs : List NexusChild)
    (hnd : (cs.map NexusChild.name).Nodup) :
    ((cs.map (fun c => NexusChild.open sz c)).filterMap
        (fun r => (r.1).toOption)).foldl (fun cs nm => closeFirst nm cs)
      ((cs.map (fun c => NexusChild.open sz c)).map Prod.snd) =
    cs.map (fun c =>
      if NexusChild.openOk sz c = true then
        { (NexusChild.open sz c).2 with state := ChildState.Closed }
      else (NexusChild.open sz c).2) := by
  have hnd2 : (((cs.map (fun c => NexusChild.open sz c)).map Prod.snd).map
      NexusChild.name).Nodup := by
    rw [open_map_names]
    exact hnd
  rw [opened_names_eq, closeAll_eq_map _ _ hnd2, List.map_map,
    List.map_map]
  apply List.map_congr_left
  intro c hc
  have hname : (Prod.snd (NexusChild.open sz c)).name = c.name :=
    open_snd_name sz c
  by_cases hok : NexusChild.openOk sz c = true
  · have hmem : (Prod.snd (NexusChild.open sz c)).name ∈
        (cs.filter (fun c => NexusChild.openOk sz c)).map NexusChild.name := by
      rw [hname]
      exact (name_mem_opened_iff sz cs hnd c hc).mpr hok
    simp [Function.comp, hmem, hok]
  · have hmem : ¬ (Prod.snd (NexusChild.open sz c)).name ∈
        (cs.filter (fun c => NexusChild.openOk sz c)).map NexusChild.name := by
      rw [hname]
      intro hx
      exact hok ((name_mem_opened_iff sz cs hnd c hc).mp hx)
    simp [Function.comp, hmem, hok]

/-- C1 amended: for pairwise-distinct child names, a successful
`try_open_children` leaves every child `Open` carrying the recorded block
length; a failed one either left the children untouched (incomplete
config, mixed block sizes) or closed every child that did open during the
attempt, each child ending `Closed`, `ConfigInvalid` (geometry failure) or
in its prior state. -/
theorem try_open_children_spec (n : Nexus) (r : Except Error Unit)
    (n2 : Nexus) (hnd : (n.children.map NexusChild.name).Nodup)
    (h : n.try_open_children = (r, n2)) :
    (∀ u, r = Except.ok u →
      ∀ c2 ∈ n2.children, c2.state = ChildState.Open ∧
        ∃ b, c2.bdev = some b ∧ b.block_len = n2.bdev.block_len) ∧
    (∀ e, r = Except.error e →
      n2 = n ∨
      (n2.children.length = n.children.length ∧
       ∀ (i : Nat) (c1 c2 : NexusChild),
         n.children[i]? = some c1 → n2.children[i]? = some c2 →
         (NexusChild.openOk n.size c1 = true →
           c2.state = ChildState.Closed) ∧
         (c2.state = ChildState.Closed ∨
          c2.state = ChildState.ConfigInvalid ∨
          c2.state = c1.state))) := by
  unfold Nexus.try_open_children at h
  split at h
  · injection h with h1 h2
    subst h1
    subst h2
    exact ⟨fun u hu => Except.noConfusion hu, fun e he => Or.inl rfl⟩
  · rename_i c0 rest heq
    simp only [] at h
    split at h
    · injection h with h1 h2
      subst h1
      subst h2
      exact ⟨fun u hu => Except.noConfusion hu, fun e he => Or.inl rfl⟩
    · split at h
      · injection h with h1 h2
        subst h1
        subst h2
        exact ⟨fun u hu => Except.noConfusion hu, fun e he => Or.inl rfl⟩
      · split at h
        · -- some open failed: the compensation branch
          rename_i hnone hmix hany
          injection h with h1 h2
          subst h1
          subst h2
          refine ⟨fun u hu => Except.noConfusion hu, fun e he => Or.inr ?_⟩
          have hnd2 : ((c0 :: rest).map NexusChild.name).Nodup := by
            rw [← heq]
            exact hnd
          have hkey := compensated_children_eq n.size (c0 :: rest) hnd2
          rw [heq]
          constructor
          · rw [hkey]
            simp
          · intro i c1 c2 h1 h2
            rw [hkey, List.getElem?_map, h1] at h2
            simp only [Option.map_some'] at h2
            injection h2 with h2
            by_cases hok : NexusChild.openOk n.size c1 = true
            · constructor
              · intro _
                rw [← h2]
                simp [hok]
              · left
                rw [← h2]
                simp [hok]
            · have hok2 : NexusChild.openOk n.size c1 = false := by
                simpa using hok
              constructor
              · intro hcontra
                rw [hcontra] at hok2
                simp at hok2
              · rcases open_of_not_openOk n.size c1 hok2 with hcase | hcase
                · right
                  left
                  rw [← h2]
                  simp [hok2, hcase]
                · right
                  right
                  rw [← h2]
                  simp [hok2, hcase]
        · -- every open succeeded
          rename_i hnone hmix hany
          injection h with h1 h2
          subst h1
          subst h2
          refine ⟨?_, fun e he => Except.noConfusion he⟩
          intro u hu c2 hc2
          have hc2m : c2 ∈ (c0 :: rest).map
              (fun c => (NexusChild.open n.size c).2) := by
            simpa [List.map_map, Function.comp] using hc2
          obtain ⟨c, hcmem, hc2eq⟩ := List.mem_map.mp hc2m
          rw [Bool.not_eq_true] at hany hnone hmix
          have hok : NexusChild.openOk n.size c = true := by
            have hmem2 := List.mem_map_of_mem
              (fun c => NexusChild.open n.size c) hcmem
            have hnot := List.any_eq_false.mp hany _ hmem2
            unfold NexusChild.openOk
            simpa using hnot
          obtain ⟨b, hb⟩ : ∃ b, c.bdev = some b := by
            have hnn := List.any_eq_false.mp hnone c hcmem
            rcases hcb : c.bdev with _ | b
            · rw [hcb] at hnn
              simp at hnn
            · exact ⟨b, rfl⟩
          have hbl : b.block_len =
              (Option.map Bdev.block_len c0.bdev).getD 0 := by
            have hx := List.any_eq_false.mp hmix c hcmem
            rw [hb] at hx
            simpa using hx
          have he2 := open_of_openOk n.size c hok
          constructor
          · rw [← hc2eq, he2]
          · refine ⟨b, ?_, ?_⟩
            · rw [← hc2eq, he2]
              exact hb
            · rw [foldAlignment_block_len]
              rw [show (n.bdev.set_block_len
                  ((Option.map Bdev.block_len c0.bdev).getD 0)).block_len =
                  (Option.map Bdev.block_len c0.bdev).getD 0 from rfl]
              exact hbl

/-- An Init child named "x" with a 100-block device (opens fine at size
51200). -/
def cX1 : NexusChild :=
  { name := "x", parent := "nx", bdev := some (b512 100),
    state := ChildState.Init }

/-- A second Init child also named "x" with a 100-block device. -/
def cX2 : NexusChild :=
  { name := "x", parent := "nx", bdev := some (b512 100),
    state := ChildState.Init }

/-- An Init child named "y" whose 10-block device is too small for size
51200: its open fails geometry validation. -/
def cY : NexusChild :=
  { name := "y", parent := "nx", bdev := some (b512 10),
    state := ChildState.Init }

/-- An Init nexus with two same-named openable children and one
geometry-failing child. -/
def nxDup : Nexus :=
  { name := "nx", size := 51200, state := NexusState.Init,
    bdev := { block_len := 0, num_blocks := 0, alignment := 0 },
    children := [cX1, cX2, cY], child_count := 3 }

/-- C1 counterexample: on `nxDup`, `try_open_children` fails (the third
child's open fails), yet afterwards the children are
`[Closed, Open, ConfigInvalid]`: the second child did open during the
attempt (its `openOk` holds) but stays `Open` — the by-name compensation
closed the first "x" twice — and the third is `ConfigInvalid`, so after
the failure not every child is `Closed` or `Init`. -/
theorem try_open_children_failure_leaves_open_child :
    (Nexus.try_open_children nxDup).1 = Except.error Error.NexusIncomplete ∧
    ((Nexus.try_open_children nxDup).2.children.map NexusChild.state) =
      [ChildState.Closed, ChildState.Open, ChildState.ConfigInvalid] ∧
    NexusChild.openOk nxDup.size cX2 = true :=
  ⟨rfl, rfl, rfl⟩

/-- An Init nexus with distinct names: "x" opens, "y" fails geometry. -/
def nxW : Nexus :=
  { name := "nx", size := 51200, state := NexusState.Init,
    bdev := { block_len := 0, num_blocks := 0, alignment := 0 },
    children := [cX1, cY], child_count := 2 }

/-- The nexus left behind by the failing `try_open_children` on `nxW`. -/
def nxWafter : Nexus := (Nexus.try_open_children nxW).2

/-- Witness for the amended C1 on `nxW` (distinct names, one failing
open). -/
theorem try_open_children_spec_witness :
    nxWafter = nxW ∨
    (nxWafter.children.length = nxW.children.length ∧
     ∀ (i : Nat) (c1 c2 : NexusChild),
       nxW.children[i]? = some c1 → nxWafter.children[i]? = some c2 →
       (NexusChild.openOk nxW.size c1 = true →
         c2.state = ChildState.Closed) ∧
       (c2.state = ChildState.Closed ∨
        c2.state = ChildState.ConfigInvalid ∨
        c2.state = c1.state)) :=
  (try_open_children_spec nxW (Except.error Error.NexusIncomplete) nxWafter
    (by decide) rfl).2 Error.NexusIncomplete rfl

end Mayastor
